import Mathlib

/-!
Verification development for the multi-engine OCR orchestration core
(`ocr_engine.py`): the rule-based field extractor `parse_id_card_fields`,
the preprocessing fallback `preprocess_image`, the per-engine pipeline
`process_image`, the orchestrator `process_all` / `process_single`, and the
voting reconciler `_determine_best_guess`.  Python strings are modelled as
Lean `String` / `List Char`; `re.search` with the concrete patterns of the
source is hand-compiled into deterministic matchers that implement the
leftmost-search, greedy-with-backtracking semantics of those exact
patterns; dictionaries are insertion-ordered association lists; floats
appear only as exact rationals; a raised exception is an `Except.error`.
-/

/-- Python `\s` for the ASCII inputs considered here. -/
def isPySpace (c : Char) : Bool :=
  c == ' ' || c == '\t' || c == '\n' || c == '\r' || c == '\x0b' || c == '\x0c'

/-- Characters matched by the separator `[:\s]` used in the labeled patterns. -/
def sepChar (c : Char) : Bool :=
  c == ':' || isPySpace c

/-- Python `str.strip()` on a list of characters. -/
def pyStripList (l : List Char) : List Char :=
  ((l.dropWhile isPySpace).reverse.dropWhile isPySpace).reverse

/-- Python `str.strip()`. -/
def pyStrip (s : String) : String :=
  ⟨pyStripList s.data⟩

/-- Python `str.lower()` (ASCII). -/
def lowerStr (s : String) : String :=
  ⟨s.data.map Char.toLower⟩

/-- Python `str.upper()` (ASCII). -/
def upperStr (s : String) : String :=
  ⟨s.data.map Char.toUpper⟩

/-- Case-insensitive literal match at the head of the input: on success
returns the matched text as it appears in the input, and the rest. -/
def ciSplit : List Char → List Char → Option (List Char × List Char)
  | [], rest => some ([], rest)
  | _ :: _, [] => none
  | p :: ps, c :: cs =>
    if p.toLower == c.toLower then
      match ciSplit ps cs with
      | some pr => some (c :: pr.1, pr.2)
      | none => none
    else none

/-- Substring test (used for the university keyword scan). -/
def hasSub (needle : List Char) : List Char → Bool
  | [] => needle.isEmpty
  | c :: cs => needle.isPrefixOf (c :: cs) || hasSub needle cs

/-- Python `re.search`: try the match-at-position function at every start
position from left to right and return the first success. -/
def pySearch (m : List Char → Option (List Char)) : List Char → Option (List Char)
  | [] => m []
  | c :: cs =>
    match m (c :: cs) with
    | some r => some r
    | none => pySearch m cs

/-- Pattern `[A-Za-z]\d{7}` (ID rule 1): whole match. -/
def idPat1 : List Char → Option (List Char)
  | [] => none
  | c :: rest =>
    if c.isAlpha && (rest.take 7).length == 7 && (rest.take 7).all (·.isDigit) then
      some (c :: rest.take 7)
    else none

/-- Pattern `ID[:\s]*([A-Za-z0-9]{6,10})` with IGNORECASE (ID rule 2):
captured group.  The separator run is forced maximal because `[:\s]` and
`[A-Za-z0-9]` are disjoint, so backtracking into it cannot succeed. -/
def idPat2 (l : List Char) : Option (List Char) :=
  match ciSplit "id".data l with
  | none => none
  | some pr =>
    let g := (pr.2.dropWhile sepChar).takeWhile (·.isAlphanum)
    if 6 ≤ g.length then some (g.take 10) else none

/-- Pattern `ID\s*No[:\s]*([A-Za-z0-9]{6,10})` with IGNORECASE (ID rule 3):
captured group. -/
def idPat3 (l : List Char) : Option (List Char) :=
  match ciSplit "id".data l with
  | none => none
  | some pr =>
    match ciSplit "no".data (pr.2.dropWhile isPySpace) with
    | none => none
    | some pr2 =>
      let g := (pr2.2.dropWhile sepChar).takeWhile (·.isAlphanum)
      if 6 ≤ g.length then some (g.take 10) else none

/-- ID field: the three ID rules tried in order, first match wins; rule 1
stores the whole match, rules 2 and 3 the captured group. -/
def idField (t : List Char) : String :=
  match pySearch idPat1 t with
  | some g => ⟨g⟩
  | none =>
    match pySearch idPat2 t with
    | some g => ⟨g⟩
    | none =>
      match pySearch idPat3 t with
      | some g => ⟨g⟩
      | none => ""

/-- Core of `([A-Z][a-z]+\s+[A-Z][a-z]+\s+[A-Z][a-z]+)` with IGNORECASE:
three maximal letter runs of length at least two separated by nonempty
whitespace runs.  Maximal runs are faithful to the greedy regex because
letters and whitespace are disjoint, so backtracking cannot produce a
different successful split. -/
def namePatCore (l : List Char) : Option (List Char) :=
  let w1 := l.takeWhile (·.isAlpha)
  let r1 := l.dropWhile (·.isAlpha)
  let s1 := r1.takeWhile isPySpace
  let r2 := r1.dropWhile isPySpace
  let w2 := r2.takeWhile (·.isAlpha)
  let r3 := r2.dropWhile (·.isAlpha)
  let s2 := r3.takeWhile isPySpace
  let r4 := r3.dropWhile isPySpace
  let w3 := r4.takeWhile (·.isAlpha)
  if w1.length < 2 || s1.isEmpty || w2.length < 2 || s2.isEmpty || w3.length < 2 then
    none
  else
    some (w1 ++ s1 ++ w2 ++ s2 ++ w3)

/-- Labeled name pattern `label[:\s]*(three capitalized words)`: captured
group.  The group starts with a letter, disjoint from `[:\s]`, so the
separator run is forced maximal. -/
def namePatWith (label : String) (l : List Char) : Option (List Char) :=
  match ciSplit label.data l with
  | none => none
  | some pr => namePatCore (pr.2.dropWhile sepChar)

/-- Python `len(s.split())`: number of maximal nonspace runs. -/
def wordCount (l : List Char) : Nat :=
  (l.foldl
    (fun (acc : Nat × Bool) c =>
      if isPySpace c then (acc.1, false)
      else if acc.2 then acc else (acc.1 + 1, true))
    (0, false)).1

/-- FullName field: `Name:` then `Full Name:` rules; a match is accepted
only if the captured span has at least two whitespace-separated tokens,
otherwise the next rule is tried. -/
def fullNameField (t : List Char) : String :=
  match pySearch (namePatWith "name") t with
  | some g =>
    if 2 ≤ wordCount g then ⟨g⟩
    else
      match pySearch (namePatWith "full name") t with
      | some g2 => if 2 ≤ wordCount g2 then ⟨g2⟩ else ""
      | none => ""
  | none =>
    match pySearch (namePatWith "full name") t with
    | some g2 => if 2 ≤ wordCount g2 then ⟨g2⟩ else ""
    | none => ""

/-- Python `text.split('\\n')`: split at every newline, keeping empty
pieces. -/
def splitLines : List Char → List (List Char)
  | [] => [[]]
  | c :: cs =>
    if c == '\n' then [] :: splitLines cs
    else
      match splitLines cs with
      | [] => [[c]]
      | l :: ls => (c :: l) :: ls

/-- University line test: lowercased line contains one of the keywords and
the stripped line is longer than 10 characters. -/
def uniLine (line : List Char) : Bool :=
  let lo := line.map Char.toLower
  (hasSub "university".data lo || hasSub "institute".data lo || hasSub "college".data lo)
    && 10 < (pyStripList line).length

/-- University field: first qualifying line of the text, stripped. -/
def universityField (t : List Char) : String :=
  match (splitLines t).find? uniLine with
  | some l => ⟨pyStripList l⟩
  | none => ""

/-- Character class `[A-Za-z\s&(),.-]` of the department patterns. -/
def deptClass (c : Char) : Bool :=
  c.isAlpha || isPySpace c || c == '&' || c == '(' || c == ')' || c == ',' ||
    c == '.' || c == '-'

/-- Backtracking over the separator `[:\s]*` for the department patterns:
the class `[A-Za-z\s&(),.-]` overlaps `\s`, so after the maximal separator
run of length k the engine retries with k-1, ..., 0 separator characters;
on the first position whose character is in the class, the greedy group is
the maximal class run from there. -/
def deptTry (r : List Char) : Nat → Option (List Char)
  | 0 =>
    match r with
    | [] => none
    | c :: _ => if deptClass c then some (r.takeWhile deptClass) else none
  | j + 1 =>
    match r.drop (j + 1) with
    | [] => deptTry r j
    | c :: _ =>
      if deptClass c then some ((r.drop (j + 1)).takeWhile deptClass)
      else deptTry r j

/-- Pattern `label[:\s]*([A-Za-z\s&(),.-]+)` with IGNORECASE: captured
group. -/
def deptPatWith (label : String) (l : List Char) : Option (List Char) :=
  match ciSplit label.data l with
  | none => none
  | some pr => deptTry pr.2 ((pr.2.takeWhile sepChar).length)

/-- Department field: `Department:` then `Dept:` rules; the captured group
is stripped. -/
def departmentField (t : List Char) : String :=
  match pySearch (deptPatWith "department") t with
  | some g => ⟨pyStripList g⟩
  | none =>
    match pySearch (deptPatWith "dept") t with
    | some g => ⟨pyStripList g⟩
    | none => ""

/-- Pattern `label[:\s]*([A-Za-z]+\s+\d{4})` with IGNORECASE: the WHOLE
match (label text as written, separator run, letter run, whitespace run,
four digits).  All runs are forced maximal by disjointness of the
adjacent character classes. -/
def labeledSeasonYear (label : String) (l : List Char) : Option (List Char) :=
  match ciSplit label.data l with
  | none => none
  | some pr =>
    let sep := pr.2.takeWhile sepChar
    let r1 := pr.2.dropWhile sepChar
    let ltrs := r1.takeWhile (·.isAlpha)
    let r2 := r1.dropWhile (·.isAlpha)
    let ws := r2.takeWhile isPySpace
    let r3 := r2.dropWhile isPySpace
    if ltrs.isEmpty || ws.isEmpty then none
    else if (r3.take 4).length == 4 && (r3.take 4).all (·.isDigit) then
      some (pr.1 ++ sep ++ ltrs ++ ws ++ r3.take 4)
    else none

/-- Alternation `(Spring|Fall|Autumn|Summer|Winter)` with IGNORECASE, in
source order; at any position at most one branch can match. -/
def seasonTok (l : List Char) : Option (List Char × List Char) :=
  match ciSplit "spring".data l with
  | some pr => some pr
  | none =>
    match ciSplit "fall".data l with
    | some pr => some pr
    | none =>
      match ciSplit "autumn".data l with
      | some pr => some pr
      | none =>
        match ciSplit "summer".data l with
        | some pr => some pr
        | none => ciSplit "winter".data l

/-- Pattern `(Spring|Fall|Autumn|Summer|Winter)\s+\d{4}` with IGNORECASE:
whole match. -/
def bareSeasonYear (l : List Char) : Option (List Char) :=
  match seasonTok l with
  | none => none
  | some pr =>
    let ws := pr.2.takeWhile isPySpace
    let r2 := pr.2.dropWhile isPySpace
    if ws.isEmpty then none
    else if (r2.take 4).length == 4 && (r2.take 4).all (·.isDigit) then
      some (pr.1 ++ ws ++ r2.take 4)
    else none

/-- Enrollment field: `Enrollment:` rule, then `Session:` rule, then the
bare season+year rule; each stores `match.group(0)`. -/
def enrollmentField (t : List Char) : String :=
  match pySearch (labeledSeasonYear "enrollment") t with
  | some g => ⟨g⟩
  | none =>
    match pySearch (labeledSeasonYear "session") t with
    | some g => ⟨g⟩
    | none =>
      match pySearch bareSeasonYear t with
      | some g => ⟨g⟩
      | none => ""

/-- Character class `[A|B|AB|O]` of the blood patterns: as a class it
matches the single characters A, B, O (case-insensitively) and the literal
pipe. -/
def bloodClass (c : Char) : Bool :=
  c.toLower == 'a' || c.toLower == 'b' || c.toLower == 'o' || c == '|'

/-- Two-character tail `[A|B|AB|O][+-]` at the head of the input. -/
def bloodAt : List Char → Option (List Char)
  | a :: s :: _ => if bloodClass a && (s == '+' || s == '-') then some [a, s] else none
  | _ => none

/-- Backtracking over the separator `[:\s]*` for the blood patterns (in
fact no separator character is in the blood class, so only the maximal
run can succeed, but the descent is kept faithful to the engine). -/
def bloodTry (r : List Char) : Nat → Option (List Char)
  | 0 => bloodAt r
  | j + 1 =>
    match bloodAt (r.drop (j + 1)) with
    | some g => some g
    | none => bloodTry r j

/-- Pattern `label[:\s]*([A|B|AB|O][+-])` with IGNORECASE: captured
group. -/
def bloodPatWith (label : String) (l : List Char) : Option (List Char) :=
  match ciSplit label.data l with
  | none => none
  | some pr => bloodTry pr.2 ((pr.2.takeWhile sepChar).length)

/-- BloodGroup field: `Blood:` then `Blood Group:` rules; the captured
group is uppercased. -/
def bloodField (t : List Char) : String :=
  match pySearch (bloodPatWith "blood") t with
  | some g => upperStr ⟨g⟩
  | none =>
    match pySearch (bloodPatWith "blood group") t with
    | some g => upperStr ⟨g⟩
    | none => ""

/-- Validity field: `Valid:` then `Validity:` rules; each stores
`match.group(0)`. -/
def validityField (t : List Char) : String :=
  match pySearch (labeledSeasonYear "valid") t with
  | some g => ⟨g⟩
  | none =>
    match pySearch (labeledSeasonYear "validity") t with
    | some g => ⟨g⟩
    | none => ""

/-- `BaseOCREngine.parse_id_card_fields`: the 7-key field record, in the
insertion order of the source dictionary literal. -/
def parse_id_card_fields (text : String) : List (String × String) :=
  [("ID", idField text.data),
   ("FullName", fullNameField text.data),
   ("University", universityField text.data),
   ("Department", departmentField text.data),
   ("Enrollment", enrollmentField text.data),
   ("BloodGroup", bloodField text.data),
   ("Validity", validityField text.data)]

/-- Environment of image operations used by `preprocess_image`: decoding
returns `none` when the file is missing, corrupt or unsupported (cv2
`imread` returns None rather than raising), and each later transform may
raise, modelled as `Except.error`. -/
structure CvEnv (Image : Type) where
  imread : String → Option Image
  imreadGrayscale : String → Option Image
  cvtColor : Image → Except String Image
  threshold : Image → Except String Image
  medianBlur : Image → Except String Image

/-- `BaseOCREngine.preprocess_image`: the body raises on a failed decode
and runs grayscale, threshold and median blur; the surrounding handler
catches every exception and returns a plain grayscale re-read of the path
(which is None for a file that cannot be decoded).  The outer `Except` is
an exception escaping to the caller; the function never produces one. -/
def preprocess_image {Image : Type} (env : CvEnv Image) (path : String) :
    Except String (Option Image) :=
  let body : Except String Image :=
    match env.imread path with
    | none => Except.error ("Could not read image from " ++ path)
    | some img =>
      match env.cvtColor img with
      | Except.error e => Except.error e
      | Except.ok gray =>
        match env.threshold gray with
        | Except.error e => Except.error e
        | Except.ok thresh =>
          match env.medianBlur thresh with
          | Except.error e => Except.error e
          | Except.ok denoised => Except.ok denoised
  match body with
  | Except.ok img => Except.ok (some img)
  | Except.error _ => Except.ok (env.imreadGrayscale path)

/-- EngineResult: the dictionary assembled by `process_image`, with the
structured data as an insertion-ordered association list and the
confidence as an exact rational. -/
structure EngineResult where
  raw_text : String
  structured_data : List (String × String)
  confidence : ℚ
  engine : String
deriving DecidableEq, Repr

/-- An engine is either a `BaseOCREngine` subclass using the inherited
pipeline, whose extraction may raise, or the inline `DummyEngine` of
`_create_dummy_engine`, which overrides `process_image` wholesale. -/
inductive Engine
| base (name : String) (extractText : String → Except String String)
| dummy (name : String) (msg : String)

/-- Name of an engine (`self.engine_name`). -/
def Engine.name : Engine → String
  | .base n _ => n
  | .dummy n _ => n

/-- `BaseOCREngine.extract_with_confidence`: the confidence heuristic
`min(1.0, len(text.strip()) / 1000)` attached to the extracted text. -/
def extract_with_confidence (extractText : String → Except String String)
    (path : String) : Except String (String × ℚ) :=
  match extractText path with
  | Except.error e => Except.error e
  | Except.ok text =>
    Except.ok (text, min 1 (((pyStrip text).length : ℚ) / 1000))

/-- `process_image`: for a base engine, extraction with confidence then
field parsing, with any exception caught and converted to the degraded
result; the dummy engine returns its fixed message with empty structured
data and zero confidence. -/
def process_image (e : Engine) (path : String) : EngineResult :=
  match e with
  | .dummy name msg =>
    { raw_text := msg, structured_data := [], confidence := 0, engine := name }
  | .base name extractText =>
    match extract_with_confidence extractText path with
    | Except.ok tc =>
      { raw_text := tc.1, structured_data := parse_id_card_fields tc.1,
        confidence := tc.2, engine := name }
    | Except.error err =>
      { raw_text := "Error: " ++ err, structured_data := [],
        confidence := 0, engine := name }

/-- The fixed field list of `_determine_best_guess` (the same 7 keys as
the `parse_id_card_fields` dictionary literal). -/
def fieldList : List String :=
  ["ID", "FullName", "University", "Department", "Enrollment", "BloodGroup", "Validity"]

/-- Python `dict.get(field, '')` on an association list. -/
def getField (sd : List (String × String)) (field : String) : String :=
  match sd.find? (fun p => p.1 == field) with
  | some p => p.2
  | none => ""

/-- The filter of `_determine_best_guess` applied to an already stripped
value: `if value and value.lower() not in ['not found', 'net found', '']`. -/
def keepValue (v : String) : Bool :=
  !(v == "") &&
    !(lowerStr v == "not found" || lowerStr v == "net found" || lowerStr v == "")

/-- The surviving values for one field, in engine iteration order: each
engine's value is fetched with default empty, stripped, then filtered. -/
def surviving (results : List (String × EngineResult)) (field : String) :
    List String :=
  (results.map (fun p => pyStrip (getField p.2.structured_data field))).filter keepValue

/-- Python `values[value] = values.get(value, 0) + 1` on an
insertion-ordered association list: the first entry with the key is
incremented in place, otherwise a fresh entry is appended. -/
def bumpTally : List (String × Nat) → String → List (String × Nat)
  | [], v => [(v, 1)]
  | p :: ps, v =>
    if p.1 = v then (p.1, p.2 + 1) :: ps else p :: bumpTally ps v

/-- The tally dictionary of `_determine_best_guess` for one field. -/
def tally (vs : List String) : List (String × Nat) :=
  vs.foldl bumpTally []

/-- Python `max(items, key=lambda x: x[1])` starting from a first item:
a later item replaces the current best only when strictly greater, so the
first item attaining the maximum is returned. -/
def pyMaxBySnd (x : String × Nat) (l : List (String × Nat)) : String × Nat :=
  l.foldl (fun acc y => if acc.2 < y.2 then y else acc) x

/-- Count lookup in a tally association list (first entry wins, default
zero). -/
def cntOf : List (String × Nat) → String → Nat
  | [], _ => 0
  | p :: ps, v => if p.1 = v then p.2 else cntOf ps v

/-- Best guess for one field: plurality winner of the tally, or the
sentinel when nothing survives the filter. -/
def bestGuessField (results : List (String × EngineResult)) (field : String) :
    String :=
  match tally (surviving results field) with
  | [] => "Not Found"
  | t :: ts => (pyMaxBySnd t ts).1

/-- `OCRProcessor._determine_best_guess`: the best-guess record over the
fixed field list. -/
def determine_best_guess (results : List (String × EngineResult)) :
    List (String × String) :=
  fieldList.map (fun f => (f, bestGuessField results f))

/-- The dictionary returned by `process_all`. -/
structure OCRReport where
  best_guess : List (String × String)
  results_by_engine : List (String × EngineResult)
deriving DecidableEq, Repr

/-- `OCRProcessor.process_all`: every registered engine is run through
`process_image` (which never raises, so the per-engine handler in the loop
is dead code), then the voting reconciler is applied. -/
def process_all (engines : List (String × Engine)) (path : String) : OCRReport :=
  let results := engines.map (fun p => (p.1, process_image p.2 path))
  { best_guess := determine_best_guess results, results_by_engine := results }

/-- `OCRProcessor.process_single`: raises `ValueError("Unknown engine:
...")` for an unregistered name, otherwise runs exactly the one engine's
pipeline. -/
def process_single (engines : List (String × Engine)) (path : String)
    (name : String) : Except String EngineResult :=
  match engines.find? (fun p => p.1 == name) with
  | none => Except.error ("Unknown engine: " ++ name)
  | some p => Except.ok (process_image p.2 path)

/-- The scenario input text of the specification. -/
def c1text : String :=
  "ID: C2010074\nName: John Michael Smith\nDept: Computer Science\nSpring 2024\nBlood: A+"

/-- An environment in which every decode fails (missing, corrupt or
unsupported file) and the pure transforms succeed. -/
def failEnv : CvEnv Nat where
  imread := fun _ => none
  imreadGrayscale := fun _ => none
  cvtColor := Except.ok
  threshold := Except.ok
  medianBlur := Except.ok

/-- An engine whose extraction always raises. -/
def throwEngine : Engine :=
  Engine.base "tesseract" (fun _ => Except.error "boom")

/-- An engine result whose field record holds just one ID value (used to
exercise the voting reconciler). -/
def mkIdResult (v : String) : EngineResult :=
  { raw_text := "", structured_data := [("ID", v)], confidence := 0, engine := "" }

/-- The specification's plurality example: engines A and B extract "X",
engine C extracts "Y". -/
def exampleResults : List (String × EngineResult) :=
  [("A", mkIdResult "X"), ("B", mkIdResult "X"), ("C", mkIdResult "Y")]

/-- A results mapping in which every ID value is discarded by the filter. -/
def discardResults : List (String × EngineResult) :=
  [("t", mkIdResult " "), ("e", mkIdResult "Not Found"), ("p", mkIdResult " net FOUND ")]

/-- A registry with one always-throwing engine and one healthy engine. -/
def isolationRegistry : List (String × Engine) :=
  [("bad", Engine.base "bad" (fun _ => Except.error "boom")),
   ("ok", Engine.dummy "ok" "fine")]

/-- A registry with a single registered engine. -/
def singleRegistry : List (String × Engine) :=
  [("tesseract", Engine.dummy "tesseract" "msg")]

/-- A results mapping holding one degraded result, whose field record has
no keys at all. -/
def degradedResults : List (String × EngineResult) :=
  [("x", { raw_text := "Error: boom", structured_data := [], confidence := 0, engine := "x" })]

theorem pyMax_cons (x y : String × Nat) (l : List (String × Nat)) :
    pyMaxBySnd x (y :: l) = pyMaxBySnd (if x.2 < y.2 then y else x) l := rfl

theorem pyMax_ge (l : List (String × Nat)) (x : String × Nat) :
    ∀ p ∈ x :: l, p.2 ≤ (pyMaxBySnd x l).2 := by
  induction l generalizing x with
  | nil =>
    intro p hp
    rcases List.mem_cons.1 hp with rfl | hp1
    · exact le_refl _
    · simp at hp1
  | cons y ys ih =>
    intro p hp
    rw [pyMax_cons]
    have hx : x.2 ≤ (if x.2 < y.2 then y else x).2 := by
      by_cases h : x.2 < y.2
      · simp only [if_pos h]; omega
      · simp only [if_neg h]; omega
    have hy : y.2 ≤ (if x.2 < y.2 then y else x).2 := by
      by_cases h : x.2 < y.2
      · simp only [if_pos h]; omega
      · simp only [if_neg h]; omega
    rcases List.mem_cons.1 hp with rfl | hp1
    · exact le_trans hx (ih _ _ (List.mem_cons_self _ _))
    rcases List.mem_cons.1 hp1 with rfl | hp2
    · exact le_trans hy (ih _ _ (List.mem_cons_self _ _))
    · exact ih _ _ (List.mem_cons_of_mem _ hp2)

theorem pyMax_first (l : List (String × Nat)) (x : String × Nat) :
    ∃ l₁ l₂, x :: l = l₁ ++ pyMaxBySnd x l :: l₂ ∧
      ∀ p ∈ l₁, p.2 < (pyMaxBySnd x l).2 := by
  induction l generalizing x with
  | nil => exact ⟨[], [], rfl, by simp⟩
  | cons y ys ih =>
    rw [pyMax_cons]
    by_cases hxy : x.2 < y.2
    · rw [if_pos hxy]
      obtain ⟨l₁, l₂, heq, hlt⟩ := ih y
      refine ⟨x :: l₁, l₂, ?_, ?_⟩
      · rw [List.cons_append, ← heq]
      · intro p hp
        rcases List.mem_cons.1 hp with rfl | hp1
        · exact lt_of_lt_of_le hxy
            (pyMax_ge ys y y (List.mem_cons_self _ _))
        · exact hlt p hp1
    · rw [if_neg hxy]
      obtain ⟨l₁, l₂, heq, hlt⟩ := ih x
      cases l₁ with
      | nil =>
        simp only [List.nil_append] at heq
        have hhead : pyMaxBySnd x ys = x := (List.cons.inj heq).1.symm
        exact ⟨[], y :: ys, by simp [hhead], by simp⟩
      | cons a l₁t =>
        have hax : x = a := (List.cons.inj heq).1
        have h2 : ys = l₁t ++ pyMaxBySnd x ys :: l₂ := (List.cons.inj heq).2
        have hxlt : x.2 < (pyMaxBySnd x ys).2 := by
          have halt := hlt a (List.mem_cons_self _ _)
          rwa [← hax] at halt
        refine ⟨x :: y :: l₁t, l₂, ?_, ?_⟩
        · rw [List.cons_append, List.cons_append, ← h2]
        · intro p hp
          rcases List.mem_cons.1 hp with rfl | hp1
          · exact hxlt
          rcases List.mem_cons.1 hp1 with rfl | hp2
          · exact lt_of_le_of_lt (not_lt.1 hxy) hxlt
          · exact hlt p (List.mem_cons_of_mem _ hp2)

theorem pyMax_mem (l : List (String × Nat)) (x : String × Nat) :
    pyMaxBySnd x l ∈ x :: l := by
  obtain ⟨l₁, l₂, heq, _⟩ := pyMax_first l x
  rw [heq]
  exact List.mem_append.2 (Or.inr (List.mem_cons_self _ _))

theorem cntOf_bump_self (m : List (String × Nat)) (v : String) :
    cntOf (bumpTally m v) v = cntOf m v + 1 := by
  induction m with
  | nil => simp [bumpTally, cntOf]
  | cons p ps ih =>
    by_cases h : p.1 = v
    · simp [bumpTally, cntOf, h]
    · simp [bumpTally, cntOf, h, ih]

theorem cntOf_bump_ne (m : List (String × Nat)) (v w : String) (hw : w ≠ v) :
    cntOf (bumpTally m v) w = cntOf m w := by
  have hvw : ¬ v = w := fun h => hw h.symm
  induction m with
  | nil => simp [bumpTally, cntOf, hvw]
  | cons p ps ih =>
    by_cases h : p.1 = v
    · have hpw : ¬ p.1 = w := by rw [h]; exact hvw
      simp [bumpTally, cntOf, h, hpw, hvw]
    · by_cases h2 : p.1 = w
      · simp [bumpTally, cntOf, h, h2, hw]
      · simp [bumpTally, cntOf, h, h2, ih]

theorem cntOf_foldl (w : String) :
    ∀ (vs : List String) (m : List (String × Nat)),
      cntOf (vs.foldl bumpTally m) w = cntOf m w + vs.count w := by
  intro vs
  induction vs with
  | nil => intro m; simp
  | cons v vs ih =>
    intro m
    rw [List.foldl_cons, ih, List.count_cons]
    by_cases hvw : v = w
    · subst hvw
      rw [cntOf_bump_self]
      simp
      omega
    · rw [cntOf_bump_ne m v w (fun h => hvw h.symm)]
      simp [hvw]

theorem cntOf_tally (vs : List String) (w : String) :
    cntOf (tally vs) w = vs.count w := by
  rw [tally, cntOf_foldl]
  simp [cntOf]

theorem mem_bump_keys (m : List (String × Nat)) (v : String) (p : String × Nat)
    (hp : p ∈ bumpTally m v) : p.1 ∈ m.map Prod.fst ∨ p.1 = v := by
  induction m with
  | nil =>
    right
    simp [bumpTally] at hp
    rw [hp]
  | cons q qs ih =>
    by_cases h : q.1 = v
    · simp only [bumpTally, if_pos h] at hp
      rcases List.mem_cons.1 hp with rfl | hp1
      · left; exact List.mem_map.2 ⟨q, List.mem_cons_self _ _, rfl⟩
      · left
        exact List.mem_map.2 ⟨p, List.mem_cons_of_mem _ hp1, rfl⟩
    · simp only [bumpTally, if_neg h] at hp
      rcases List.mem_cons.1 hp with rfl | hp1
      · left; exact List.mem_map_of_mem _ (List.mem_cons_self _ _)
      · rcases ih hp1 with h2 | h2
        · left
          obtain ⟨q2, hq2, hq2e⟩ := List.mem_map.1 h2
          exact List.mem_map.2 ⟨q2, List.mem_cons_of_mem _ hq2, hq2e⟩
        · right; exact h2

theorem mem_foldl_keys (p : String × Nat) :
    ∀ (vs : List String) (m : List (String × Nat)),
      p ∈ vs.foldl bumpTally m → p.1 ∈ m.map Prod.fst ∨ p.1 ∈ vs := by
  intro vs
  induction vs with
  | nil =>
    intro m hp
    left
    exact List.mem_map_of_mem _ hp
  | cons v vs ih =>
    intro m hp
    rw [List.foldl_cons] at hp
    rcases ih (bumpTally m v) hp with h | h
    · obtain ⟨q, hq, hqe⟩ := List.mem_map.1 h
      rcases mem_bump_keys m v q hq with h2 | h2
      · left; rwa [hqe] at h2
      · right; rw [← hqe, h2]; exact List.mem_cons_self _ _
    · right; exact List.mem_cons_of_mem _ h

theorem mem_tally_keys (vs : List String) (p : String × Nat)
    (hp : p ∈ tally vs) : p.1 ∈ vs := by
  rcases mem_foldl_keys p vs [] hp with h | h
  · simp at h
  · exact h

theorem find?_map_of_mem {β : Type} (g : Engine → β) :
    ∀ (es : List (String × Engine)) (n : String) (e : Engine),
      (es.map Prod.fst).Nodup → (n, e) ∈ es →
      (es.map (fun p => (p.1, g p.2))).find? (fun q => q.1 == n) = some (n, g e) := by
  intro es
  induction es with
  | nil => intro n e _ h; simp at h
  | cons a tl ih =>
    intro n e hnd hmem
    by_cases h : a.1 = n
    · rcases List.mem_cons.1 hmem with rfl | hmem1
      · simp [List.find?]
      · exfalso
        have : n ∈ tl.map Prod.fst :=
          List.mem_map.2 ⟨(n, e), hmem1, rfl⟩
        rw [← h] at this
        exact (List.nodup_cons.1 (by simpa using hnd)).1 this
    · have hne : ((a.1, g a.2).1 == n) = false := by
        simp [h]
      rcases List.mem_cons.1 hmem with rfl | hmem1
      · exact absurd rfl h
      · rw [List.map_cons]
        simp only [List.find?, hne]
        exact ih n e (List.nodup_cons.1 (by simpa using hnd)).2 hmem1

theorem lowerStr_empty {w : String} (h : lowerStr w = "") : w = "" := by
  have h2 : w.data.map Char.toLower = [] := congrArg String.data h
  have h3 : w.data = [] := List.map_eq_nil_iff.1 h2
  cases w
  simp_all

theorem parse_keys (t : String) :
    (parse_id_card_fields t).map Prod.fst = fieldList := rfl

set_option maxRecDepth 8192

/-- C1 (counterexample): on the scenario input the extractor does not
return the record claimed by the specification — the Department value is
"Computer Science\nSpring", because the permissive class of the `Dept:`
rule includes whitespace (hence newlines) and stops only at the first
digit of "2024". -/
theorem c1_scenario_refuted :
    getField (parse_id_card_fields c1text) "Department" = "Computer Science\nSpring" ∧
    parse_id_card_fields c1text ≠
      [("ID", "C2010074"), ("FullName", "John Michael Smith"), ("University", ""),
       ("Department", "Computer Science"), ("Enrollment", "Spring 2024"),
       ("BloodGroup", "A+"), ("Validity", "")] := by
  constructor
  · rfl
  · decide

/-- C1 (amended): on the scenario input the extractor returns the claimed
record except that the Department value is "Computer Science\nSpring"
(the captured run crosses the newline and is cut at the digit '2'). -/
theorem c1_scenario_amended :
    parse_id_card_fields c1text =
      [("ID", "C2010074"), ("FullName", "John Michael Smith"), ("University", ""),
       ("Department", "Computer Science\nSpring"), ("Enrollment", "Spring 2024"),
       ("BloodGroup", "A+"), ("Validity", "")] := by
  decide

/-- C4: the blood-group character class `[A|B|AB|O]` matches one single
character, so the two-letter group AB is never captured — "Blood: AB+"
leaves BloodGroup empty — while the single-letter groups A, B, O with a
sign are captured and uppercased. -/
theorem c4_blood_group :
    getField (parse_id_card_fields "Blood: AB+") "BloodGroup" = "" ∧
    getField (parse_id_card_fields "Blood: A+") "BloodGroup" = "A+" ∧
    getField (parse_id_card_fields "Blood: B-") "BloodGroup" = "B-" ∧
    getField (parse_id_card_fields "Blood: O+") "BloodGroup" = "O+" ∧
    getField (parse_id_card_fields "Blood: o-") "BloodGroup" = "O-" := by
  decide

/-- C10: the labeled Enrollment rules (`Enrollment:`, `Session:`) and the
Validity rules (`Valid:`, `Validity:`) store the entire match including
the label prefix; the bare season+year rule stores the token alone; and
FullName, Department and BloodGroup store only the captured group, with
Department stripped and BloodGroup uppercased. -/
theorem c10_stored_spans :
    getField (parse_id_card_fields "Enrollment: Spring 2024") "Enrollment" =
      "Enrollment: Spring 2024" ∧
    getField (parse_id_card_fields "Session: Fall 2023") "Enrollment" =
      "Session: Fall 2023" ∧
    getField (parse_id_card_fields "Valid: Fall 2025") "Validity" =
      "Valid: Fall 2025" ∧
    getField (parse_id_card_fields "Validity: Summer 2026") "Validity" =
      "Validity: Summer 2026" ∧
    getField (parse_id_card_fields "Spring 2024") "Enrollment" = "Spring 2024" ∧
    getField (parse_id_card_fields "Name: John Michael Smith") "FullName" =
      "John Michael Smith" ∧
    getField (parse_id_card_fields "Dept: Physics ") "Department" = "Physics" ∧
    getField (parse_id_card_fields "Blood: a+") "BloodGroup" = "A+" := by
  decide

/-- C2 (counterexample): in an environment where decoding fails, the
preprocess operation does not raise anything — the internally raised
decode error is caught by the function's own handler and the grayscale
re-read (None for the same undecodable file) is silently returned. -/
theorem c2_decode_refuted :
    failEnv.imread "missing.png" = none ∧
    preprocess_image failEnv "missing.png" = Except.ok none := by
  exact ⟨rfl, rfl⟩

/-- C2 (amended): `preprocess_image` never raises to its caller; when the
decode fails it returns the plain grayscale re-read of the path (which is
None for a file that cannot be decoded), the same fallback used for
failures of the later binarize/denoise steps. -/
theorem c2_preprocess_fallback :
    (∀ (Image : Type) (env : CvEnv Image) (path : String),
       env.imread path = none →
       preprocess_image env path = Except.ok (env.imreadGrayscale path)) ∧
    (∀ (Image : Type) (env : CvEnv Image) (path : String),
       ∃ v, preprocess_image env path = Except.ok v) := by
  constructor
  · intro Image env path h
    simp [preprocess_image, h]
  · intro Image env path
    rcases h1 : env.imread path with _ | img
    · exact ⟨env.imreadGrayscale path, by simp [preprocess_image, h1]⟩
    · rcases h2 : env.cvtColor img with e | gray
      · exact ⟨env.imreadGrayscale path, by simp [preprocess_image, h1, h2]⟩
      · rcases h3 : env.threshold gray with e | th
        · exact ⟨env.imreadGrayscale path, by simp [preprocess_image, h1, h2, h3]⟩
        · rcases h4 : env.medianBlur th with e | dn
          · exact ⟨env.imreadGrayscale path, by simp [preprocess_image, h1, h2, h3, h4]⟩
          · exact ⟨some dn, by simp [preprocess_image, h1, h2, h3, h4]⟩

/-- C2 (witness): the amended statement applied to the failing
environment. -/
theorem c2_preprocess_fallback_witness :
    preprocess_image failEnv "missing.png" =
      Except.ok (failEnv.imreadGrayscale "missing.png") :=
  c2_preprocess_fallback.1 Nat failEnv "missing.png" rfl

/-- C3 (counterexample): the degraded result produced when extraction
throws carries an empty field record with no keys at all, not the 7 fixed
keys with empty-string values. -/
theorem c3_degraded_refuted :
    (process_image throwEngine "card.png").structured_data = [] ∧
    ((process_image throwEngine "card.png").structured_data).map Prod.fst ≠ fieldList := by
  exact ⟨rfl, by decide⟩

/-- C3 (amended): the success-path result of `process_image` carries a
field record with exactly the 7 fixed keys, while the degraded result and
the dummy engine's result carry an empty record with no keys. -/
theorem c3_structured_keys :
    (∀ (name : String) (f : String → Except String String) (path t : String),
       f path = Except.ok t →
       ((process_image (Engine.base name f) path).structured_data).map Prod.fst =
         fieldList) ∧
    (∀ (name : String) (f : String → Except String String) (path e : String),
       f path = Except.error e →
       (process_image (Engine.base name f) path).structured_data = []) ∧
    (∀ (name msg path : String),
       (process_image (Engine.dummy name msg) path).structured_data = []) := by
  refine ⟨?_, ?_, ?_⟩
  · intro name f path t h
    simp [process_image, extract_with_confidence, h, parse_keys]
  · intro name f path e h
    simp [process_image, extract_with_confidence, h]
  · intro name msg path
    rfl

/-- C3 (witness): the amended statement at concrete engines. -/
theorem c3_structured_keys_witness :
    ((process_image (Engine.base "t" (fun _ => Except.ok "hello")) "p").structured_data).map
      Prod.fst = fieldList ∧
    (process_image (Engine.base "t" (fun _ => Except.error "boom")) "p").structured_data = [] ∧
    (process_image (Engine.dummy "d" "m") "p").structured_data = [] :=
  ⟨c3_structured_keys.1 "t" _ "p" "hello" rfl,
   c3_structured_keys.2.1 "t" _ "p" "boom" rfl,
   c3_structured_keys.2.2 "d" "m" "p"⟩

/-- C5: for every field and results mapping with a nonempty tally, the
best guess is the first value of the tally that attains the maximal
count, the tally being the multiset of surviving values counted by exact
string equality in first-encountered order; and on the specification's
example (engines A, B extracting "X", engine C extracting "Y") the best
guess is "X". -/
theorem c5_plurality :
    (∀ (results : List (String × EngineResult)) (field : String)
       (t : String × Nat) (ts : List (String × Nat)),
       tally (surviving results field) = t :: ts →
       bestGuessField results field = (pyMaxBySnd t ts).1 ∧
       pyMaxBySnd t ts ∈ t :: ts ∧
       (∀ p ∈ t :: ts, p.2 ≤ (pyMaxBySnd t ts).2) ∧
       (∃ l₁ l₂, t :: ts = l₁ ++ pyMaxBySnd t ts :: l₂ ∧
          ∀ p ∈ l₁, p.2 < (pyMaxBySnd t ts).2) ∧
       (∀ v, cntOf (t :: ts) v = (surviving results field).count v)) ∧
    bestGuessField exampleResults "ID" = "X" := by
  constructor
  · intro results field t ts h
    refine ⟨?_, pyMax_mem ts t, pyMax_ge ts t, pyMax_first ts t, ?_⟩
    · unfold bestGuessField
      rw [h]
    · intro v
      rw [← h, cntOf_tally]
  · decide

/-- C5 (witness): the general statement applied to the specification's
plurality example, whose tally is [("X", 2), ("Y", 1)]. -/
theorem c5_plurality_witness :
    bestGuessField exampleResults "ID" = (pyMaxBySnd ("X", 2) [("Y", 1)]).1 ∧
    pyMaxBySnd ("X", 2) [("Y", 1)] ∈ [("X", 2), ("Y", 1)] ∧
    (∀ p ∈ [("X", 2), ("Y", 1)], p.2 ≤ (pyMaxBySnd ("X", 2) [("Y", 1)]).2) ∧
    (∃ l₁ l₂, [("X", 2), ("Y", 1)] = l₁ ++ pyMaxBySnd ("X", 2) [("Y", 1)] :: l₂ ∧
       ∀ p ∈ l₁, p.2 < (pyMaxBySnd ("X", 2) [("Y", 1)]).2) ∧
    (∀ v, cntOf [("X", 2), ("Y", 1)] v = (surviving exampleResults "ID").count v) :=
  c5_plurality.1 exampleResults "ID" ("X", 2) [("Y", 1)] (by decide)

/-- C6: a stripped per-engine value is discarded by the voting filter
exactly when it is empty or case-insensitively equals "not found" or
"net found"; and when every engine's value for a field is discarded, the
best guess for that field is exactly "Not Found". -/
theorem c6_filter_sentinel :
    (∀ v : String,
       keepValue (pyStrip v) = false ↔
         (pyStrip v = "" ∨ lowerStr (pyStrip v) = "not found" ∨
           lowerStr (pyStrip v) = "net found")) ∧
    (∀ (results : List (String × EngineResult)) (field : String),
       (∀ r ∈ results, keepValue (pyStrip (getField r.2.structured_data field)) = false) →
       bestGuessField results field = "Not Found") := by
  constructor
  · intro v
    by_cases h1 : pyStrip v = ""
    · simp [keepValue, h1, lowerStr]
    · by_cases h2 : lowerStr (pyStrip v) = "not found"
      · simp [keepValue, h1, h2]
      · by_cases h3 : lowerStr (pyStrip v) = "net found"
        · simp [keepValue, h1, h2, h3]
        · by_cases h4 : lowerStr (pyStrip v) = ""
          · exact absurd (lowerStr_empty h4) h1
          · simp [keepValue, h1, h2, h3, h4]
  · intro results field h
    have hs : surviving results field = [] := by
      rw [surviving, List.filter_eq_nil_iff]
      intro a ha
      obtain ⟨p, hp, rfl⟩ := List.mem_map.1 ha
      simp [h p hp]
    unfold bestGuessField
    rw [hs]
    rfl

/-- C6 (witness): the second part applied to a mapping of values " ",
"Not Found" and " net FOUND ", all of which the filter discards. -/
theorem c6_filter_sentinel_witness :
    bestGuessField discardResults "ID" = "Not Found" :=
  c6_filter_sentinel.2 discardResults "ID" (by decide)

/-- C9: the voting reconciler is total: its output record has exactly the
7 fixed keys in order; each value is either the "Not Found" sentinel or
one of the surviving stripped per-engine values; and a field key missing
from a record is read as the empty string. -/
theorem c9_best_guess_total (results : List (String × EngineResult)) :
    (determine_best_guess results).map Prod.fst = fieldList ∧
    (∀ f v, (f, v) ∈ determine_best_guess results →
       v = "Not Found" ∨ v ∈ surviving results f) ∧
    (∀ (sd : List (String × String)) (f : String),
       sd.find? (fun p => p.1 == f) = none → getField sd f = "") := by
  refine ⟨?_, ?_, ?_⟩
  · simp [determine_best_guess, fieldList]
  · intro f v hmem
    obtain ⟨f0, hf0, heq⟩ := List.mem_map.1 hmem
    obtain ⟨rfl, rfl⟩ : f0 = f ∧ bestGuessField results f0 = v := by
      constructor
      · exact congrArg Prod.fst heq
      · exact congrArg Prod.snd heq
    cases ht : tally (surviving results f0) with
    | nil =>
      left
      unfold bestGuessField
      rw [ht]
    | cons t ts =>
      right
      have hm : pyMaxBySnd t ts ∈ tally (surviving results f0) := by
        rw [ht]; exact pyMax_mem ts t
      have hk := mem_tally_keys _ _ hm
      have hv : bestGuessField results f0 = (pyMaxBySnd t ts).1 := by
        unfold bestGuessField
        rw [ht]
      rw [hv]
      exact hk
  · intro sd f h
    unfold getField
    rw [h]

/-- C9 (witness): the statement applied to a mapping holding a degraded
result whose record has no keys. -/
theorem c9_best_guess_total_witness :
    (determine_best_guess degradedResults).map Prod.fst = fieldList ∧
    ("Not Found" = "Not Found" ∨ "Not Found" ∈ surviving degradedResults "ID") ∧
    getField [("FullName", "x")] "ID" = "" :=
  ⟨(c9_best_guess_total degradedResults).1,
   (c9_best_guess_total degradedResults).2.1 "ID" "Not Found" (by decide),
   (c9_best_guess_total degradedResults).2.2 [("FullName", "x")] "ID" (by decide)⟩

/-- C7: if one registered engine's extraction always throws, `process_all`
still returns a report whose per-engine keys are exactly the registry's
keys, in which that engine's entry is the degraded result (confidence 0,
non-empty explanatory raw text) and every other engine's entry is its
normal pipeline result. -/
theorem c7_engine_isolation (engines : List (String × Engine)) (path msg n₀ : String)
    (_hne : engines ≠ []) (hnd : (engines.map Prod.fst).Nodup)
    (hmem : (n₀, Engine.base n₀ (fun _ => Except.error msg)) ∈ engines) :
    (process_all engines path).results_by_engine.map Prod.fst = engines.map Prod.fst ∧
    (process_all engines path).results_by_engine.find? (fun q => q.1 == n₀) =
      some (n₀, { raw_text := "Error: " ++ msg, structured_data := [],
                  confidence := 0, engine := n₀ }) ∧
    ("Error: " ++ msg) ≠ "" ∧
    (∀ n e, (n, e) ∈ engines → n ≠ n₀ →
       (process_all engines path).results_by_engine.find? (fun q => q.1 == n) =
         some (n, process_image e path)) := by
  refine ⟨?_, ?_, ?_, ?_⟩
  · simp [process_all, List.map_map]
  · have h2 := find?_map_of_mem (fun e => process_image e path) engines n₀
      (Engine.base n₀ (fun _ => Except.error msg)) hnd hmem
    exact h2
  · intro h
    have h2 := congrArg String.length h
    rw [String.length_append] at h2
    simp at h2
    exact absurd h2.1 (by decide)
  · intro n e hm hneq
    exact find?_map_of_mem (fun e => process_image e path) engines n e hnd hm

/-- C7 (witness): the statement applied to a registry with one
always-throwing engine and one healthy engine. -/
theorem c7_engine_isolation_witness :
    (process_all isolationRegistry "img.png").results_by_engine.map Prod.fst =
      isolationRegistry.map Prod.fst ∧
    (process_all isolationRegistry "img.png").results_by_engine.find?
      (fun q => q.1 == "bad") =
      some ("bad", { raw_text := "Error: " ++ "boom", structured_data := [],
                     confidence := 0, engine := "bad" }) ∧
    (process_all isolationRegistry "img.png").results_by_engine.find?
      (fun q => q.1 == "ok") =
      some ("ok", process_image (Engine.dummy "ok" "fine") "img.png") := by
  have h := c7_engine_isolation isolationRegistry "img.png" "boom" "bad"
    (List.cons_ne_nil _ _) (by decide) (List.mem_cons_self _ _)
  exact ⟨h.1, h.2.1,
    h.2.2.2 "ok" (Engine.dummy "ok" "fine")
      (List.mem_cons_of_mem _ (List.mem_cons_self _ _)) (by decide)⟩

/-- C8: `process_single` fails with the unknown-engine error exactly when
the requested identifier is not a registry key; for a registered
identifier it returns exactly that engine's `process_image` result, with
no voting performed. -/
theorem c8_process_single (engines : List (String × Engine)) (path name : String) :
    (process_single engines path name = Except.error ("Unknown engine: " ++ name) ↔
       name ∉ engines.map Prod.fst) ∧
    (∀ p, engines.find? (fun q => q.1 == name) = some p →
       process_single engines path name = Except.ok (process_image p.2 path)) := by
  constructor
  · cases hf : engines.find? (fun q => q.1 == name) with
    | none =>
      constructor
      · intro _ hmem
        obtain ⟨p, hp, hfst⟩ := List.mem_map.1 hmem
        have hnp := List.find?_eq_none.1 hf p hp
        rw [hfst] at hnp
        simp at hnp
      · intro _
        simp [process_single, hf]
    | some p =>
      constructor
      · intro h
        rw [process_single] at h
        rw [hf] at h
        simp at h
      · intro hnot
        exfalso
        apply hnot
        have hp := List.find?_some hf
        have hpm := List.mem_of_find?_eq_some hf
        simp at hp
        exact hp ▸ List.mem_map.2 ⟨p, hpm, rfl⟩
  · intro p hp
    rw [process_single, hp]

/-- C8 (witness): an unregistered identifier fails with the unknown-engine
error and the registered identifier returns its engine's pipeline
result. -/
theorem c8_process_single_witness :
    process_single singleRegistry "p" "nonexistent" =
      Except.error ("Unknown engine: " ++ "nonexistent") ∧
    process_single singleRegistry "p" "tesseract" =
      Except.ok (process_image (Engine.dummy "tesseract" "msg") "p") :=
  ⟨(c8_process_single singleRegistry "p" "nonexistent").1.mpr (by decide),
   (c8_process_single singleRegistry "p" "tesseract").2
     ("tesseract", Engine.dummy "tesseract" "msg") rfl⟩
